import Mathlib

/-!
Shallow embedding of the versioned migration engine (`Migration.ts`) and the
hydration effect (`PersistenceEffects.ts`) of the redux-storage-effect
repository, together with proofs of the specification claims.

JavaScript runtime values are modelled by `JsVal`, thrown values by `JsErr`,
and a function that may throw by `JsVal → Except JsErr JsVal`.
-/

/-- JavaScript numbers restricted to the values the engine manipulates:
integers and NaN (`Number` applied to a non-numeric string). -/
inductive JsNum where
  | int (n : Int)
  | nan
deriving DecidableEq, Repr

/-- JavaScript runtime values (the `Real` data the engine migrates). -/
inductive JsVal where
  | vStr (s : String)
  | vNum (n : JsNum)
  | vBool (b : Bool)
  | vNull
  | vUndefined
  | vArr (elems : List JsVal)
  | vObj (fields : List (String × JsVal))

/-- A thrown JavaScript value: an `Error` with a message, or a `TypeError`
(as raised by calling `undefined`). -/
inductive JsErr where
  | error (msg : String)
  | typeError (msg : String)
deriving DecidableEq, Repr

/-- `typeof` on the modelled values (`typeof null` is `"object"`). -/
def jsTypeof : JsVal → String
  | .vStr _ => "string"
  | .vNum _ => "number"
  | .vBool _ => "boolean"
  | .vNull => "object"
  | .vUndefined => "undefined"
  | .vArr _ => "object"
  | .vObj _ => "object"

/-- JavaScript truthiness of the modelled values. -/
def jsTruthy : JsVal → Bool
  | .vStr s => s ≠ ""
  | .vNum (.int n) => n ≠ 0
  | .vNum .nan => false
  | .vBool b => b
  | .vNull => false
  | .vUndefined => false
  | .vArr _ => true
  | .vObj _ => true

/-- Accumulating decimal parse over a character list; `none` on the first
non-digit. -/
def parseNatAcc (cs : List Char) (acc : Nat) : Option Nat :=
  match cs with
  | [] => some acc
  | c :: rest =>
    if c.isDigit then parseNatAcc rest (acc * 10 + (c.toNat - 48)) else none

/-- Decimal integer parse of a whole string: an optional minus sign then
one or more digits. -/
def jsParseInt? (s : String) : Option Int :=
  match s.toList with
  | [] => none
  | ['-'] => none
  | '-' :: rest => (parseNatAcc rest 0).map (fun n => -(n : Int))
  | cs => (parseNatAcc cs 0).map (fun n => (n : Int))

/-- `Number(s)` on strings, restricted to the forms the engine feeds it:
the empty string is 0, a signed decimal integer literal parses to that
integer, anything else is NaN. -/
def jsNumberOfString (s : String) : JsNum :=
  if s = "" then .int 0
  else
    match jsParseInt? s with
    | some n => .int n
    | none => .nan

/-- `String(n)` for a JavaScript number. -/
def jsStringOfNum : JsNum → String
  | .int n => toString n
  | .nan => "NaN"

/-!
### Shape descriptors (`describeShape` and `MigrationError`)
-/

/-- The result of `describeShape`: either a `TypeDescription` string
(a `typeof` tag or `Array<...>`) or a keyed `ShapeDescription`. -/
inductive ShapeDescription where
  | tag (t : String)
  | obj (fields : List (String × ShapeDescription))

/-- Template-literal interpolation of a descriptor: a string interpolates
as itself, a keyed object as `[object Object]`. -/
def shapeToTemplateString : ShapeDescription → String
  | .tag t => t
  | .obj _ => "[object Object]"

mutual
/-- `describeShape` from `Migration.ts`: primitives map to their `typeof`
tag, arrays to `Array<` the (interpolated) descriptor of their first
element `>`, and objects to the keyed structure of recursively
described values. -/
def describeShape : JsVal → ShapeDescription
  | .vStr _ => .tag "string"
  | .vNum _ => .tag "number"
  | .vBool _ => .tag "boolean"
  | .vNull => .tag "object"
  | .vUndefined => .tag "undefined"
  | .vArr [] =>
      .tag ("Array<" ++ shapeToTemplateString (.tag "undefined") ++ ">")
  | .vArr (x :: _) =>
      .tag ("Array<" ++ shapeToTemplateString (describeShape x) ++ ">")
  | .vObj fields => .obj (describeShapeFields fields)

/-- `describeShape` mapped over the entries of an object. -/
def describeShapeFields : List (String × JsVal) → List (String × ShapeDescription)
  | [] => []
  | (k, v) :: rest => (k, describeShape v) :: describeShapeFields rest
end

mutual
/-- `JSON.stringify` of a shape descriptor (keys and tags contain no
characters needing escapes). -/
def serializeShape : ShapeDescription → String
  | .tag t => "\"" ++ t ++ "\""
  | .obj fields => "\x7b" ++ serializeShapeFields fields ++ "\x7d"

/-- Serialization of the comma-separated field list of a descriptor. -/
def serializeShapeFields : List (String × ShapeDescription) → String
  | [] => ""
  | [(k, v)] => "\"" ++ k ++ "\":" ++ serializeShape v
  | (k, v) :: rest => "\"" ++ k ++ "\":" ++ serializeShape v ++ "," ++ serializeShapeFields rest
end

/-- `String.slice(0, n)` — the first n characters (the strings involved
are ASCII, so code units and characters coincide). -/
def strTake (s : String) (n : Nat) : String :=
  ⟨s.toList.take n⟩

/-- The structured migration failure thrown by `Migrations.run`: the
original thrown value as `cause`, the version range, the value-free shape
descriptor, and the truncated human-readable message. -/
structure MigrationError where
  cause : JsErr
  fromVersion : Int
  toVersion : Int
  persistedShape : ShapeDescription
  message : String

/-- The `MigrationError` constructor: derives the shape descriptor of the
offending data and the message `Migration from <from> to <to> failed.
Persisted <first 60 chars of the serialized shape>`. -/
def MigrationError.make (cause : JsErr) (fromVersion toVersion : Int)
    (persistedData : JsVal) : MigrationError :=
  let shape := describeShape persistedData
  let serializedShape := serializeShape shape
  { cause := cause
    fromVersion := fromVersion
    toVersion := toVersion
    persistedShape := shape
    message := "Migration from " ++ toString fromVersion ++ " to " ++ toString toVersion
      ++ " failed. Persisted " ++ strTake serializedShape 60 }

/-- Substring occurrence, used to state that a secret never appears in a
derived message. -/
def strOccursIn (needle haystack : String) : Prop :=
  needle.toList <:+: haystack.toList

instance (needle haystack : String) : Decidable (strOccursIn needle haystack) :=
  List.decidableInfix needle.toList haystack.toList

/-!
### The migration engine: `Migrations`, the fluent builder, and `run`
-/

/-- A stored migration step (`MigrationFn`): a function of the persisted
value that either returns the next value or throws. -/
abbrev MigrationFn := JsVal → Except JsErr JsVal

/-- The `Migrations` container: the step list, stored oldest-version-first
because `add` unshifts onto the front. -/
structure Migrations where
  migrations : List MigrationFn

/-- `Migrations.add` — `unshift`: prepends the step to the list. -/
def Migrations.add (m : Migrations) (migrationFn : MigrationFn) : Migrations :=
  ⟨migrationFn :: m.migrations⟩

/-- The `currentVersion` getter — the length of the step list. -/
def Migrations.currentVersion (m : Migrations) : Int :=
  m.migrations.length

/-- `this.migrations[version - 1](state)`: an out-of-range index yields
`undefined`, and calling `undefined` throws a `TypeError`. -/
def Migrations.callStep (m : Migrations) (version : Int) (state : JsVal) :
    Except JsErr JsVal :=
  if h : 0 ≤ version - 1 ∧ (version - 1).toNat < m.migrations.length then
    (m.migrations.get ⟨(version - 1).toNat, h.2⟩) state
  else
    .error (.typeError "this.migrations[version - 1] is not a function")

/-- The `for (; version <= this.currentVersion; version++)` loop of
`Migrations.run`: on success the final state, on a throw the thrown value
together with the values of the mutated loop variables `version` and
`state` at that moment. -/
def Migrations.runLoop (m : Migrations) (state : JsVal) (version : Int) :
    Except (JsErr × Int × JsVal) JsVal :=
  if _h : version ≤ m.currentVersion then
    match m.callStep version state with
    | .error e => .error (e, version, state)
    | .ok state' => m.runLoop state' (version + 1)
  else
    .ok state
termination_by (m.currentVersion + 1 - version).toNat
decreasing_by
  simp only [Migrations.currentVersion] at *
  omega

/-- The observable outcome of `Migrations.run`: the reset sentinel
(`return ResetSentinel`), a migrated value (`return state`), or a thrown
`MigrationError`. -/
inductive RunOutcome where
  | resetSentinel
  | ok (value : JsVal)
  | err (e : MigrationError)

/-- `Migrations.run`: returns the reset sentinel when the persisted version
exceeds the current one, otherwise replays the loop; a value thrown inside
the `try` block is wrapped into a `MigrationError` built from the mutated
loop variables `version` and `state`. -/
def Migrations.run (m : Migrations) (state : JsVal) (version : Int) : RunOutcome :=
  if m.currentVersion < version then
    .resetSentinel
  else
    match m.runLoop state version with
    | .ok final => .ok final
    | .error (e, v, st) => .err (.make e v m.currentVersion st)

/-- `CurrentVersionBuildStep.currentVersion`: registers the current-version
validator as a step. -/
def CurrentVersionBuildStep.currentVersion (m : Migrations) (validate : MigrationFn) :
    Migrations :=
  m.add validate

/-- `OlderVersionBuildStep.olderVersion`: registers
`(state) => migrate(validate(state))` — "validate then upgrade" — as a new
oldest step. -/
def OlderVersionBuildStep.olderVersion (m : Migrations)
    (validate : MigrationFn) (migrate : MigrationFn) : Migrations :=
  m.add (fun state => validate state >>= migrate)

/-- `buildMigration` applied to a fluent definition consisting of one
`currentVersion(validate)` call followed by the listed `olderVersion`
calls, in call order. -/
def buildMigration (currentValidate : MigrationFn)
    (olderCalls : List (MigrationFn × MigrationFn)) : Migrations :=
  olderCalls.foldl (fun m p => OlderVersionBuildStep.olderVersion m p.1 p.2)
    (CurrentVersionBuildStep.currentVersion ⟨[]⟩ currentValidate)

/-- Specification-level sequential application of a list of steps,
propagating the first throw. -/
def applySteps : List MigrationFn → JsVal → Except JsErr JsVal
  | [], state => .ok state
  | f :: fs, state => f state >>= applySteps fs

/-- Indexed sequential application: like `applySteps` but carrying the
1-based version index, so that a throw reports the index and the
intermediate value at the failing step. -/
def applyStepsIdx : List MigrationFn → Int → JsVal → Except (JsErr × Int × JsVal) JsVal
  | [], _, state => .ok state
  | f :: fs, v, state =>
    match f state with
    | .error e => .error (e, v, state)
    | .ok state' => applyStepsIdx fs (v + 1) state'

/-!
### JavaScript coercions and the example chains from the spec and tests
-/

mutual
/-- `String(x)` on the modelled values. -/
def jsStringOf : JsVal → String
  | .vStr s => s
  | .vNum n => jsStringOfNum n
  | .vBool b => cond b "true" "false"
  | .vNull => "null"
  | .vUndefined => "undefined"
  | .vArr elems => jsStringOfElems elems
  | .vObj _ => "[object Object]"

/-- `Array.prototype.join` with a comma: elements stringify recursively,
null and undefined as the empty string. -/
def jsStringOfElems : List JsVal → String
  | [] => ""
  | [.vNull] => ""
  | [.vUndefined] => ""
  | [v] => jsStringOf v
  | .vNull :: v :: rest => "," ++ jsStringOfElems (v :: rest)
  | .vUndefined :: v :: rest => "," ++ jsStringOfElems (v :: rest)
  | u :: v :: rest => jsStringOf u ++ "," ++ jsStringOfElems (v :: rest)
end

/-- `Number(x)` on the modelled values: strings parse, booleans and null
coerce to integers, undefined and plain objects are NaN, arrays coerce
through their string form. -/
def jsNumberOf : JsVal → JsNum
  | .vStr s => jsNumberOfString s
  | .vNum n => n
  | .vBool true => .int 1
  | .vBool false => .int 0
  | .vNull => .int 0
  | .vUndefined => .nan
  | .vArr elems => jsNumberOfString (jsStringOfElems elems)
  | .vObj _ => .nan

/-- Property access `fields[key]` on the entry list of an object
(`undefined` when the key is absent). -/
def jsGetField (fields : List (String × JsVal)) (key : String) : JsVal :=
  match fields.find? (fun kv => kv.1 == key) with
  | some kv => kv.2
  | none => .vUndefined

/-- Property access `x.key`, `undefined` on non-objects. -/
def jsGetFieldOf (v : JsVal) (key : String) : JsVal :=
  match v with
  | .vObj fields => jsGetField fields key
  | _ => .vUndefined

/-- The test fixture's `mustBe` validator for an io-ts object codec with a
single string property: accepts an object whose `key` property is a
string, returning the object unchanged; otherwise throws
`Error("[test] validation fail")`. -/
def mustHaveStr (key : String) : MigrationFn := fun state =>
  match state with
  | .vObj fields =>
    match jsGetField fields key with
    | .vStr _ => .ok (.vObj fields)
    | _ => .error (.error "[test] validation fail")
  | _ => .error (.error "[test] validation fail")

/-- The test fixture's `mustBe` validator for an io-ts object codec with a
single number property. -/
def mustHaveNum (key : String) : MigrationFn := fun state =>
  match state with
  | .vObj fields =>
    match jsGetField fields key with
    | .vNum _ => .ok (.vObj fields)
    | _ => .error (.error "[test] validation fail")
  | _ => .error (.error "[test] validation fail")

/-- The spec example's v1→v2 upgrade: maps an object with a string `foo`
to an object with `bar` holding `Number(foo)`. -/
def upgradeV1toV2 : MigrationFn := fun v0 =>
  .ok (.vObj [("bar", .vNum (jsNumberOf (jsGetFieldOf v0 "foo")))])

/-- The spec example's v2→v3 upgrade: maps an object with a number `bar`
to an object with `baz` holding `String(bar)`. -/
def upgradeV2toV3 : MigrationFn := fun v1 =>
  .ok (.vObj [("baz", .vStr (jsStringOf (jsGetFieldOf v1 "bar")))])

/-- The three-version chain of the spec example (`setupV3` in the tests):
`currentVersion` with the v3 validator, then `olderVersion` for v2→v3,
then `olderVersion` for v1→v2. -/
def chainV3 : Migrations :=
  buildMigration (mustHaveStr "baz")
    [(mustHaveNum "bar", upgradeV2toV3), (mustHaveStr "foo", upgradeV1toV2)]

/-- The v1 payload of the spec example. -/
def dataV1 : JsVal := .vObj [("foo", .vStr "123")]

/-- A current-version validator accepting only strings, used to observe a
failure at the final step of a chain. -/
def mustBeStr : MigrationFn := fun state =>
  match state with
  | .vStr s => .ok (.vStr s)
  | _ => .error (.error "[test] validation fail")

/-- A two-version chain whose older step ignores its input and produces
the number 0, which the current-version validator then rejects: the
failure happens at step 2 on the intermediate value. -/
def chainW : Migrations :=
  buildMigration mustBeStr [(fun s => .ok s, fun _ => .ok (.vNum (.int 0)))]

/-- The sensitive input of the shape-descriptor claim. -/
def secretInput : JsVal :=
  .vObj [("secret", .vStr "password123"), ("count", .vNum (.int 3))]

/-!
### The hydrate effect (`PersistenceEffects.ts`)
-/

/-- The record `DiskSpace.get` hands to the hydrate effect: the stored
version tag and the deserialized payload. -/
structure PersistedRecord where
  version : Int
  data : JsVal

/-- Storage as the hydrate effect observes it: one optional record per
owner key. -/
abbrev Disk := String → Option PersistedRecord

/-- `disk.set(owner, state)`: stores the state under the configured latest
version. -/
def diskSet (disk : Disk) (owner : String) (version : Int) (data : JsVal) : Disk :=
  fun o => if o = owner then some ⟨version, data⟩ else disk o

/-- `disk.clear(owner)`: removes the owner's record. -/
def diskClear (disk : Disk) (owner : String) : Disk :=
  fun o => if o = owner then none else disk o

/-- The slice of the resolved persistence `Config` the hydrate effect
reads: the current version, the migrate function, and the hydrate
action creator (an action is modelled as an opaque `JsVal`). -/
structure HydrateConfig where
  version : Int
  migrate : JsVal → Int → RunOutcome
  hydrate : JsVal → JsVal

/-- `ensureVersionRelevance` from `PersistenceEffects.ts`: same version
returns the data as-is; otherwise the migrate result either resets (clear
the owner's record, yield `undefined`), succeeds (write back under the
current version, yield the migrated data), or throws (the `MigrationError`
propagates). -/
def ensureVersionRelevance (cfg : HydrateConfig) (disk : Disk)
    (persisted : PersistedRecord) (owner : String) :
    Except MigrationError (Option JsVal × Disk) :=
  if persisted.version = cfg.version then
    .ok (some persisted.data, disk)
  else
    match cfg.migrate persisted.data persisted.version with
    | .resetSentinel => .ok (none, diskClear disk owner)
    | .ok migratedData => .ok (some migratedData, diskSet disk owner cfg.version migratedData)
    | .err e => .error e

/-- `theHydrateEffect`: reads the selected owner's record, ensures version
relevance, and dispatches the hydrate action on truthy valid data. The
result is the storage after the call and the list of dispatched actions;
a thrown `MigrationError` propagates. -/
def theHydrateEffect (cfg : HydrateConfig) (owner : Option String) (disk : Disk) :
    Except MigrationError (Disk × List JsVal) :=
  match owner with
  | none => .ok (disk, [])
  | some owner =>
    match disk owner with
    | none => .ok (disk, [])
    | some persistedData =>
      match ensureVersionRelevance cfg disk persistedData owner with
      | .error e => .error e
      | .ok (validData, disk') =>
        match validData with
        | none => .ok (disk', [])
        | some d =>
          if jsTruthy d then .ok (disk', [cfg.hydrate d]) else .ok (disk', [])

/-- A record persisted under version 4, newer than `chainV3`'s version 3:
hydrating it must reset. -/
def staleRecord : PersistedRecord := ⟨4, .vStr "stale"⟩

/-- Storage holding `staleRecord` for every owner. -/
def staleDisk : Disk := fun _ => some staleRecord

/-- The record of the versions-are-same test: version 99 with the stored
object. -/
def sameVersionRecord : PersistedRecord := ⟨99, .vObj [("hello", .vStr "world")]⟩

/-- Storage holding `sameVersionRecord` for every owner. -/
def sameVersionDisk : Disk := fun _ => some sameVersionRecord

/-- The versions-are-same test's config: version 99 and a migrate function
that would return a different object if it were (wrongly) consulted. -/
def sameVersionCfg : HydrateConfig :=
  ⟨99, fun _ _ => .ok (.vObj [("hello", .vStr "not what was stored")]), fun a => a⟩

/-!
### Structural lemmas shared by the claim proofs
-/

theorem exceptBind_ok (s : JsVal) (g : JsVal → Except JsErr JsVal) :
    (Except.ok s >>= g) = g s := rfl

theorem exceptBind_error (e : JsErr) (g : JsVal → Except JsErr JsVal) :
    ((Except.error e : Except JsErr JsVal) >>= g) = .error e := rfl

theorem olderVersion_foldl (olds : List (MigrationFn × MigrationFn))
    (acc : List MigrationFn) :
    (olds.foldl (fun m p => OlderVersionBuildStep.olderVersion m p.1 p.2)
        ⟨acc⟩).migrations
      = (olds.map (fun p => fun state => p.1 state >>= p.2)).reverse ++ acc := by
  induction olds generalizing acc with
  | nil => simp
  | cons p ps ih =>
    simp only [List.foldl_cons, List.map_cons, List.reverse_cons]
    rw [show OlderVersionBuildStep.olderVersion ⟨acc⟩ p.1 p.2
          = (⟨(fun state => p.1 state >>= p.2) :: acc⟩ : Migrations) from rfl]
    rw [ih]
    simp

theorem buildMigration_migrations (cv : MigrationFn)
    (olds : List (MigrationFn × MigrationFn)) :
    (buildMigration cv olds).migrations
      = (olds.map (fun p => fun state => p.1 state >>= p.2)).reverse ++ [cv] :=
  olderVersion_foldl olds [cv]

theorem buildMigration_length (cv : MigrationFn)
    (olds : List (MigrationFn × MigrationFn)) :
    (buildMigration cv olds).migrations.length = olds.length + 1 := by
  rw [buildMigration_migrations]
  simp

theorem callStep_eq (m : Migrations) (version : Int) (state : JsVal)
    (h1 : 1 ≤ version) (h2 : (version - 1).toNat < m.migrations.length) :
    m.callStep version state = m.migrations.get ⟨(version - 1).toNat, h2⟩ state := by
  rw [Migrations.callStep, dif_pos ⟨by omega, h2⟩]

theorem callStep_out_of_range (m : Migrations) (version : Int) (state : JsVal)
    (h1 : version < 1) :
    m.callStep version state
      = .error (.typeError "this.migrations[version - 1] is not a function") := by
  rw [Migrations.callStep, dif_neg]
  intro h
  omega

theorem runLoop_step (m : Migrations) (state : JsVal) (version : Int)
    (hle : version ≤ m.currentVersion) :
    m.runLoop state version
      = match m.callStep version state with
        | .error e => .error (e, version, state)
        | .ok state' => m.runLoop state' (version + 1) := by
  rw [Migrations.runLoop, dif_pos hle]

theorem runLoop_stop (m : Migrations) (state : JsVal) (version : Int)
    (hgt : m.currentVersion < version) :
    m.runLoop state version = .ok state := by
  rw [Migrations.runLoop, dif_neg (by omega)]

theorem applyStepsIdx_cons (f : MigrationFn) (fs : List MigrationFn) (v : Int)
    (state : JsVal) :
    applyStepsIdx (f :: fs) v state
      = match f state with
        | .error e => .error (e, v, state)
        | .ok state' => applyStepsIdx fs (v + 1) state' := rfl

theorem runLoop_eq_applyStepsIdx (m : Migrations) (state : JsVal) (version : Int)
    (h1 : 1 ≤ version) :
    m.runLoop state version
      = applyStepsIdx (m.migrations.drop (version - 1).toNat) version state := by
  by_cases hle : version ≤ m.currentVersion
  · have hlen : (version - 1).toNat < m.migrations.length := by
      simp only [Migrations.currentVersion] at hle
      omega
    have hget : m.migrations[(version - 1).toNat]
        = m.migrations.get ⟨(version - 1).toNat, hlen⟩ := rfl
    rw [runLoop_step m state version hle, callStep_eq m version state h1 hlen,
        List.drop_eq_getElem_cons hlen, applyStepsIdx_cons, hget]
    have hsucc : (version - 1).toNat + 1 = (version + 1 - 1).toNat := by omega
    cases hres : m.migrations.get ⟨(version - 1).toNat, hlen⟩ state with
    | error e => rfl
    | ok state' =>
      rw [hsucc]
      exact runLoop_eq_applyStepsIdx m state' (version + 1) (by omega)
  · rw [runLoop_stop m state version (by omega)]
    rw [List.drop_eq_nil_of_le (by simp only [Migrations.currentVersion] at hle; omega)]
    rfl
termination_by (m.currentVersion + 1 - version).toNat
decreasing_by simp only [Migrations.currentVersion] at *; omega

theorem applyStepsIdx_ok_iff (fs : List MigrationFn) (v : Int) (state r : JsVal) :
    applyStepsIdx fs v state = .ok r ↔ applySteps fs state = .ok r := by
  induction fs generalizing v state with
  | nil => simp [applyStepsIdx, applySteps]
  | cons f fs ih =>
    simp only [applyStepsIdx, applySteps]
    cases hf : f state with
    | error e => rw [exceptBind_error]; simp
    | ok s' => rw [exceptBind_ok]; exact ih (v + 1) s'

theorem applyStepsIdx_error_exists (fs : List MigrationFn) (v : Int)
    (state : JsVal) (e : JsErr)
    (h : applySteps fs state = .error e) :
    ∃ v' st', applyStepsIdx fs v state = .error (e, v', st') := by
  induction fs generalizing v state with
  | nil => simp [applySteps] at h
  | cons f fs ih =>
    simp only [applySteps] at h
    cases hf : f state with
    | error e' =>
      rw [hf, exceptBind_error] at h
      injection h with h'
      subst h'
      exact ⟨v, state, by simp [applyStepsIdx, hf]⟩
    | ok s' =>
      rw [hf, exceptBind_ok] at h
      obtain ⟨v', st', h'⟩ := ih (v + 1) s' h
      exact ⟨v', st', by simp [applyStepsIdx, hf, h']⟩

theorem applyStepsIdx_error_at (fs : List MigrationFn) (v : Int) (state : JsVal)
    (j : Nat) (st : JsVal) (e : JsErr) (hj : j < fs.length)
    (hpre : applySteps (fs.take j) state = .ok st)
    (hfail : fs.get ⟨j, hj⟩ st = .error e) :
    applyStepsIdx fs v state = .error (e, v + (j : Int), st) := by
  induction j generalizing fs v state with
  | zero =>
    cases fs with
    | nil => simp at hj
    | cons f fs =>
      simp only [List.take_zero, applySteps] at hpre
      injection hpre with h'
      subst h'
      simp only [List.get] at hfail
      simp [applyStepsIdx, hfail]
  | succ j ih =>
    cases fs with
    | nil => simp at hj
    | cons f fs =>
      simp only [List.take_succ_cons, applySteps] at hpre
      cases hf : f state with
      | error e' =>
        rw [hf, exceptBind_error] at hpre
        exact absurd hpre (by simp)
      | ok s' =>
        rw [hf, exceptBind_ok] at hpre
        have hrec := ih fs (v + 1) s' (by simpa using hj) hpre (by simpa using hfail)
        simp only [applyStepsIdx, hf, hrec]
        have : v + 1 + (j : Int) = v + ((j + 1 : Nat) : Int) := by push_cast; ring
        rw [this]

theorem run_ok_iff (m : Migrations) (state : JsVal) (pv : Int) (r : JsVal)
    (h1 : 1 ≤ pv) (h2 : pv ≤ m.currentVersion) :
    m.run state pv = .ok r
      ↔ applySteps (m.migrations.drop (pv - 1).toNat) state = .ok r := by
  rw [Migrations.run, if_neg (by omega), runLoop_eq_applyStepsIdx m state pv h1]
  rw [← applyStepsIdx_ok_iff (m.migrations.drop (pv - 1).toNat) pv state r]
  cases happ : applyStepsIdx (m.migrations.drop (pv - 1).toNat) pv state with
  | error p => obtain ⟨e, v', st'⟩ := p; simp
  | ok f => simp

theorem run_reset_iff (m : Migrations) (state : JsVal) (version : Int) :
    m.run state version = .resetSentinel ↔ m.currentVersion < version := by
  rw [Migrations.run]
  by_cases h : m.currentVersion < version
  · simp [h]
  · rw [if_neg h]
    cases m.runLoop state version with
    | error p => obtain ⟨e, v', st'⟩ := p; simp [h]
    | ok f => simp [h]

theorem describeShapeFields_eq_map (fields : List (String × JsVal)) :
    describeShapeFields fields
      = fields.map (fun kv => (kv.1, describeShape kv.2)) := by
  induction fields with
  | nil => simp [describeShapeFields]
  | cons kv rest ih => cases kv; simp [describeShapeFields, ih]

/-!
### Claim theorems
-/

/-- C5: a chain built with exactly one `currentVersion` call and n
subsequent `olderVersion` calls has version 1 + n; `currentVersion()`
alone yields version 1, and each `olderVersion` call increments the
derived version by exactly 1. -/
theorem version_is_one_plus_older_count :
    (∀ (cv : MigrationFn) (olds : List (MigrationFn × MigrationFn)),
        (buildMigration cv olds).currentVersion = 1 + (olds.length : Int)) ∧
    (∀ cv : MigrationFn, (buildMigration cv []).currentVersion = 1) ∧
    (∀ (m : Migrations) (validate migrate : MigrationFn),
        (OlderVersionBuildStep.olderVersion m validate migrate).currentVersion
          = m.currentVersion + 1) := by
  refine ⟨fun cv olds => ?_, fun cv => ?_, fun m validate migrate => ?_⟩
  · simp only [Migrations.currentVersion, buildMigration_length]
    push_cast
    ring
  · simp only [Migrations.currentVersion, buildMigration_length]
    rfl
  · simp only [Migrations.currentVersion, OlderVersionBuildStep.olderVersion,
      Migrations.add, List.length_cons]
    push_cast
    ring

/-- C2: for every payload and every version strictly greater than the
chain's current version, `run` returns the reset sentinel — it neither
throws nor invokes any stored step (the result is the same for every
chain at that version). -/
theorem downgrade_returns_reset :
    ∀ (m : Migrations) (state : JsVal) (version : Int),
      m.currentVersion < version → m.run state version = .resetSentinel := by
  intro m state version h
  rw [Migrations.run, if_pos h]

/-- Witness: the 3-version example chain at version 4 resets. -/
theorem downgrade_returns_reset_witness :
    chainV3.currentVersion < 4
      ∧ chainV3.run (.vObj [("any", .vBool true)]) 4 = .resetSentinel :=
  ⟨by decide, downgrade_returns_reset chainV3 (.vObj [("any", .vBool true)]) 4 (by decide)⟩

/-- C1: the builder stores the `olderVersion` composites (validate then
upgrade) oldest-first with the current-version validator last; for
1 ≤ persistedVersion ≤ currentVersion, `run` succeeds exactly when
sequentially applying the stored steps from index persistedVersion
onwards succeeds; on the 3-version example chain, migrating the v1
payload from version 1 yields the v3 payload. -/
theorem migrate_applies_step_suffix :
    (∀ (cv : MigrationFn) (olds : List (MigrationFn × MigrationFn)),
        (buildMigration cv olds).migrations
          = (olds.map (fun p => fun state => p.1 state >>= p.2)).reverse ++ [cv]) ∧
    (∀ (m : Migrations) (state : JsVal) (pv : Int) (r : JsVal),
        1 ≤ pv → pv ≤ m.currentVersion →
        (m.run state pv = .ok r
          ↔ applySteps (m.migrations.drop (pv - 1).toNat) state = .ok r)) ∧
    chainV3.run dataV1 1 = .ok (.vObj [("baz", .vStr "123")]) := by
  refine ⟨buildMigration_migrations, run_ok_iff, ?_⟩
  have h : applySteps (chainV3.migrations.drop ((1 : Int) - 1).toNat) dataV1
      = .ok (.vObj [("baz", .vStr "123")]) := rfl
  exact (run_ok_iff chainV3 dataV1 1 _ (by omega) (by decide)).mpr h

/-- Witness: the suffix characterization at version 2 of the example
chain, migrating the v2 payload. -/
theorem migrate_applies_step_suffix_witness :
    ((1 : Int) ≤ 2 ∧ (2 : Int) ≤ chainV3.currentVersion) ∧
    (chainV3.run (.vObj [("bar", .vNum (.int 123))]) 2 = .ok (.vObj [("baz", .vStr "123")])
      ↔ applySteps (chainV3.migrations.drop ((2 : Int) - 1).toNat)
          (.vObj [("bar", .vNum (.int 123))]) = .ok (.vObj [("baz", .vStr "123")])) :=
  ⟨⟨by decide, by decide⟩,
    migrate_applies_step_suffix.2.1 chainV3 (.vObj [("bar", .vNum (.int 123))]) 2
      (.vObj [("baz", .vStr "123")]) (by decide) (by decide)⟩

/-- C4: running at the current version is exactly one application of the
current-version validator — `run` succeeds with r iff the validator
returns r, and data the validator accepts unchanged comes back unchanged
(never bypassing the validator). -/
theorem same_version_runs_validator_once :
    ∀ (cv : MigrationFn) (olds : List (MigrationFn × MigrationFn)) (state : JsVal),
      (∀ r : JsVal,
        (buildMigration cv olds).run state (buildMigration cv olds).currentVersion = .ok r
          ↔ cv state = .ok r) ∧
      (cv state = .ok state →
        (buildMigration cv olds).run state (buildMigration cv olds).currentVersion
          = .ok state) := by
  intro cv olds state
  have hcur : (buildMigration cv olds).currentVersion = (olds.length : Int) + 1 := by
    simp only [Migrations.currentVersion, buildMigration_length]
    push_cast
    ring
  have hdrop : (buildMigration cv olds).migrations.drop
      (((buildMigration cv olds).currentVersion - 1).toNat) = [cv] := by
    rw [buildMigration_migrations, hcur,
        show ((olds.length : Int) + 1 - 1).toNat = olds.length from by omega]
    exact List.drop_left' (by simp)
  have key : ∀ r : JsVal,
      (buildMigration cv olds).run state (buildMigration cv olds).currentVersion = .ok r
        ↔ cv state = .ok r := by
    intro r
    rw [run_ok_iff _ _ _ _ (by omega) (le_refl _), hdrop]
    simp only [applySteps]
    cases h : cv state with
    | error e => rw [exceptBind_error]
    | ok s' => rw [exceptBind_ok]
  exact ⟨key, fun h => (key state).mpr h⟩

/-- Witness: the single-version chain validates and returns a string
payload unchanged. -/
theorem same_version_runs_validator_once_witness :
    mustBeStr (.vStr "hi") = .ok (.vStr "hi") ∧
    (buildMigration mustBeStr []).run (.vStr "hi") (buildMigration mustBeStr []).currentVersion
      = .ok (.vStr "hi") :=
  ⟨rfl, (same_version_runs_validator_once mustBeStr [] (.vStr "hi")).2 rfl⟩

/-- C3: if sequentially applying the steps from the persisted version
throws e, then `run` throws a `MigrationError` whose cause is e itself —
it does not return the reset sentinel and the error is not swallowed. -/
theorem thrown_errors_wrap_into_migration_error :
    ∀ (m : Migrations) (state : JsVal) (pv : Int) (e : JsErr),
      1 ≤ pv → pv ≤ m.currentVersion →
      applySteps (m.migrations.drop (pv - 1).toNat) state = .error e →
      ∃ E : MigrationError,
        m.run state pv = .err E ∧ E.cause = e
          ∧ m.run state pv ≠ .resetSentinel := by
  intro m state pv e h1 h2 herr
  obtain ⟨v', st', hidx⟩ := applyStepsIdx_error_exists _ pv state e herr
  have hrun : m.run state pv = .err (.make e v' m.currentVersion st') := by
    rw [Migrations.run, if_neg (by omega), runLoop_eq_applyStepsIdx m state pv h1, hidx]
  exact ⟨MigrationError.make e v' m.currentVersion st', hrun, rfl, by rw [hrun]; simp⟩

/-- Witness: the example chain on a v1 payload whose `foo` is a number —
the v1 validator throws and the failure wraps it as the cause. -/
theorem thrown_errors_wrap_witness :
    (1 : Int) ≤ 1 ∧ (1 : Int) ≤ chainV3.currentVersion ∧
    applySteps (chainV3.migrations.drop ((1 : Int) - 1).toNat)
        (.vObj [("foo", .vNum (.int 321))])
      = .error (.error "[test] validation fail") ∧
    ∃ E : MigrationError,
      chainV3.run (.vObj [("foo", .vNum (.int 321))]) 1 = .err E
        ∧ E.cause = .error "[test] validation fail"
        ∧ chainV3.run (.vObj [("foo", .vNum (.int 321))]) 1 ≠ .resetSentinel :=
  ⟨by omega, by decide, rfl,
    thrown_errors_wrap_into_migration_error chainV3 (.vObj [("foo", .vNum (.int 321))]) 1
      (.error "[test] validation fail") (by omega) (by decide) rfl⟩

/-- C9: when the steps from the persisted version succeed up to (but not
including) step k, producing the intermediate value st, and step k then
throws e, the `MigrationError` is built from the mutated loop variables:
fromVersion is k (not the original persisted version) and the shape
descriptor comes from st (not the originally persisted data). -/
theorem failure_reports_mutated_loop_state :
    ∀ (m : Migrations) (state st : JsVal) (pv k : Int) (e : JsErr),
      1 ≤ pv → pv ≤ k → k ≤ m.currentVersion →
      applySteps ((m.migrations.drop (pv - 1).toNat).take (k - pv).toNat) state = .ok st →
      m.callStep k st = .error e →
      m.run state pv = .err (MigrationError.make e k m.currentVersion st) := by
  intro m state st pv k e h1 h2 h3 hpre hfail
  have hcur : (m.migrations.length : Int) = m.currentVersion := rfl
  have hj : (k - pv).toNat < (m.migrations.drop (pv - 1).toNat).length := by
    simp only [List.length_drop]
    omega
  have hk1 : (k - 1).toNat < m.migrations.length := by omega
  have hsum : (pv - 1).toNat + (k - pv).toNat < m.migrations.length := by omega
  have hgetfail : (m.migrations.drop (pv - 1).toNat).get ⟨(k - pv).toNat, hj⟩ st
      = .error e := by
    rw [callStep_eq m k st (by omega) hk1] at hfail
    rw [List.get_eq_getElem, List.getElem_drop]
    show m.migrations.get ⟨(pv - 1).toNat + (k - pv).toNat, hsum⟩ st = .error e
    rw [show (⟨(pv - 1).toNat + (k - pv).toNat, hsum⟩ : Fin m.migrations.length)
          = ⟨(k - 1).toNat, hk1⟩ from
        Fin.ext (show (pv - 1).toNat + (k - pv).toNat = (k - 1).toNat from by omega)]
    exact hfail
  have hidx := applyStepsIdx_error_at (m.migrations.drop (pv - 1).toNat) pv state
      (k - pv).toNat st e hj hpre hgetfail
  rw [Migrations.run, if_neg (by omega), runLoop_eq_applyStepsIdx m state pv h1, hidx,
      show pv + (((k - pv).toNat : Nat) : Int) = k from by omega]

/-- Witness: a two-step chain started at version 1 fails at step 2 on the
intermediate value 0 produced by step 1. -/
theorem failure_reports_mutated_loop_state_witness :
    applySteps ((chainW.migrations.drop ((1 : Int) - 1).toNat).take ((2 : Int) - 1).toNat)
        (.vBool true) = .ok (.vNum (.int 0)) ∧
    chainW.callStep 2 (.vNum (.int 0)) = .error (.error "[test] validation fail") ∧
    chainW.run (.vBool true) 1
      = .err (MigrationError.make (.error "[test] validation fail") 2
          chainW.currentVersion (.vNum (.int 0))) :=
  ⟨rfl, rfl,
    failure_reports_mutated_loop_state chainW (.vBool true) (.vNum (.int 0)) 1 2
      (.error "[test] validation fail") (by omega) (by omega) (by decide) rfl rfl⟩

/-- C10: on a non-empty chain, a version below 1 neither resets nor
migrates: the step lookup at the negative index yields `undefined`, the
call throws a `TypeError`, and `run` re-throws it wrapped in a
`MigrationError`. -/
theorem below_range_version_throws :
    ∀ (m : Migrations) (state : JsVal) (version : Int),
      1 ≤ m.currentVersion → version < 1 →
      m.run state version
          = .err (MigrationError.make
              (.typeError "this.migrations[version - 1] is not a function")
              version m.currentVersion state)
        ∧ m.run state version ≠ .resetSentinel
        ∧ ∀ r : JsVal, m.run state version ≠ .ok r := by
  intro m state version hcur hv
  have hrun : m.run state version
      = .err (MigrationError.make
          (.typeError "this.migrations[version - 1] is not a function")
          version m.currentVersion state) := by
    rw [Migrations.run, if_neg (by omega), runLoop_step m state version (by omega),
        callStep_out_of_range m version state hv]
  exact ⟨hrun, by rw [hrun]; simp, fun r => by rw [hrun]; simp⟩

/-- Witness: the example chain at version 0 throws the wrapped
`TypeError`. -/
theorem below_range_version_throws_witness :
    (1 : Int) ≤ chainV3.currentVersion ∧ (0 : Int) < 1 ∧
    chainV3.run .vNull 0
      = .err (MigrationError.make
          (.typeError "this.migrations[version - 1] is not a function")
          0 chainV3.currentVersion .vNull) :=
  ⟨by decide, by omega,
    (below_range_version_throws chainV3 .vNull 0 (by decide) (by omega)).1⟩

set_option maxRecDepth 8000 in
/-- C6: the shape descriptor maps primitives to their runtime type tag
(never the value), arrays to an `Array<...>` tag built from the descriptor
of the first element (`Array<undefined>` when empty), and objects to the
keyed structure of recursively described values; on the sensitive input
the descriptor is exactly the two type tags, and the secret string occurs
neither in the serialized descriptor nor in the derived failure message. -/
theorem shape_descriptor_is_value_free :
    (∀ s, describeShape (.vStr s) = .tag (jsTypeof (.vStr s))) ∧
    (∀ n, describeShape (.vNum n) = .tag (jsTypeof (.vNum n))) ∧
    (∀ b, describeShape (.vBool b) = .tag (jsTypeof (.vBool b))) ∧
    describeShape .vNull = .tag (jsTypeof .vNull) ∧
    describeShape .vUndefined = .tag (jsTypeof .vUndefined) ∧
    (∀ x rest, describeShape (.vArr (x :: rest))
        = .tag ("Array<" ++ shapeToTemplateString (describeShape x) ++ ">")) ∧
    describeShape (.vArr []) = .tag "Array<undefined>" ∧
    (∀ fields, describeShape (.vObj fields)
        = .obj (fields.map (fun kv => (kv.1, describeShape kv.2)))) ∧
    describeShape secretInput
      = .obj [("secret", .tag "string"), ("count", .tag "number")] ∧
    ¬ strOccursIn "password123" (serializeShape (describeShape secretInput)) ∧
    ¬ strOccursIn "password123"
        ((MigrationError.make (.error "original failure") 1 2 secretInput).message) := by
  refine ⟨fun s => rfl, fun n => rfl, fun b => rfl, rfl, rfl, fun x rest => rfl, rfl,
    fun fields => ?_, rfl, by decide, by decide⟩
  rw [show describeShape (.vObj fields) = .obj (describeShapeFields fields) from rfl,
      describeShapeFields_eq_map]

/-- C7: whenever the migration runner of the configured chain returns the
reset sentinel for a persisted record, the hydrate effect clears that
owner's record from storage and dispatches nothing. -/
theorem reset_clears_storage_and_skips_hydration :
    ∀ (m : Migrations) (hydrateAction : JsVal → JsVal) (owner : String) (disk : Disk)
      (p : PersistedRecord),
      disk owner = some p →
      m.run p.data p.version = .resetSentinel →
      theHydrateEffect ⟨m.currentVersion, m.run, hydrateAction⟩ (some owner) disk
          = .ok (diskClear disk owner, [])
        ∧ diskClear disk owner owner = none := by
  intro m hydrateAction owner disk p hdisk hreset
  have hver : ¬ p.version = m.currentVersion := by
    have := (run_reset_iff m p.data p.version).mp hreset
    omega
  refine ⟨?_, by simp [diskClear]⟩
  simp [theHydrateEffect, hdisk, ensureVersionRelevance, hver, hreset]

/-- Witness: hydrating a version-4 record against the 3-version chain
clears the record and dispatches nothing. -/
theorem reset_clears_storage_witness :
    staleDisk "A" = some staleRecord ∧
    chainV3.run staleRecord.data staleRecord.version = .resetSentinel ∧
    (theHydrateEffect ⟨chainV3.currentVersion, chainV3.run, fun a => a⟩ (some "A") staleDisk
        = .ok (diskClear staleDisk "A", [])
      ∧ diskClear staleDisk "A" "A" = none) :=
  ⟨rfl, rfl,
    reset_clears_storage_and_skips_hydration chainV3 (fun a => a) "A" staleDisk
      staleRecord rfl rfl⟩

/-- C8: when the stored version equals the configured current version, the
hydrate effect hands the persisted data to the hydrate action unchanged,
leaves storage untouched, and never consults the migrate function (the
result is the same for every migrate function). -/
theorem same_version_skips_migration :
    ∀ (cfg : HydrateConfig) (owner : String) (disk : Disk) (p : PersistedRecord),
      disk owner = some p →
      p.version = cfg.version →
      theHydrateEffect cfg (some owner) disk
          = .ok (disk, if jsTruthy p.data then [cfg.hydrate p.data] else [])
        ∧ ∀ migrateFn : JsVal → Int → RunOutcome,
            theHydrateEffect ⟨cfg.version, migrateFn, cfg.hydrate⟩ (some owner) disk
              = theHydrateEffect cfg (some owner) disk := by
  intro cfg owner disk p hdisk hver
  have main : ∀ (migrateFn : JsVal → Int → RunOutcome) (hy : JsVal → JsVal),
      theHydrateEffect ⟨cfg.version, migrateFn, hy⟩ (some owner) disk
        = .ok (disk, if jsTruthy p.data then [hy p.data] else []) := by
    intro migrateFn hy
    simp only [theHydrateEffect, hdisk, ensureVersionRelevance]
    rw [if_pos hver]
    cases h : jsTruthy p.data <;> simp [h]
  have h1 : theHydrateEffect cfg (some owner) disk
      = .ok (disk, if jsTruthy p.data then [cfg.hydrate p.data] else []) :=
    main cfg.migrate cfg.hydrate
  exact ⟨h1, fun migrateFn => by rw [main migrateFn cfg.hydrate, h1]⟩

/-- Witness: the versions-are-same scenario of the test suite — version 99
on both sides, the stored object is handed through unchanged and storage
is untouched. -/
theorem same_version_skips_migration_witness :
    sameVersionDisk "static" = some sameVersionRecord ∧
    sameVersionRecord.version = sameVersionCfg.version ∧
    theHydrateEffect sameVersionCfg (some "static") sameVersionDisk
      = .ok (sameVersionDisk,
          if jsTruthy sameVersionRecord.data
          then [sameVersionCfg.hydrate sameVersionRecord.data] else []) :=
  ⟨rfl, rfl,
    (same_version_skips_migration sameVersionCfg "static" sameVersionDisk
      sameVersionRecord rfl rfl).1⟩
